import Mathlib

/-!
Shallow embedding of `contact_book.py` (a single-file contact-book manager)
and proofs about it.

Modelling conventions:
* Python strings are Lean `String`s, manipulated through their character
  lists (`String.data`).  `str.lower()` is modelled by lowercasing each
  character (`Char.toLower`), `c.isdigit()` by `Char.isDigit` (decimal
  digits), and the substring test `q in s` by an explicit recursive scan
  over the character list (`containsSub`).
* The store `self.contacts` is a Python `dict`, i.e. an insertion-ordered
  mapping; it is modelled as an association list `List (String × Contact)`.
  `dict` key assignment of a fresh key appends at the end; `del` removes
  the entry; in-place field assignment maps over the entry with that key
  (dict keys are unique, so at most one entry matches).
* `datetime.now().strftime("%Y-%m-%d %H:%M:%S")` is an external effect; the
  produced timestamp string is passed to `add_contact` as the `now`
  argument.
* The backing file and the `json` library: the file state is modelled as
  absent, syntactically invalid, or holding a parsed JSON value (`Json`
  tree).  `json.dump`/`json.load` round-tripping of a JSON value through
  its text form is the external library's contract; what the repository
  contributes — which value is written and what the program does with the
  loaded value — is modelled explicitly (`save_contacts`, `load_contacts`,
  `encodeContacts`, `decodeContacts`).
* Mutating methods print and save; each operation returns an `OpResult`
  carrying the boolean result, the new store, and whether `save_contacts`
  was called (`saved`).
-/

/-- Model of Python `str.lower()`: lowercase every character. -/
def pylower (s : String) : String :=
  ⟨s.data.map Char.toLower⟩

/-- A contact record: the value stored under a name key
(`contact_book.py` lines 43–48). -/
structure Contact where
  phone : String
  email : String
  address : String
  date_added : String
deriving DecidableEq, Repr

/-- The in-memory store `self.contacts`: an insertion-ordered mapping from
name to record, modelled as an association list. -/
abbrev Contacts := List (String × Contact)

/-- Model of Python's substring test `q in s` on character lists: `q` occurs
contiguously in `s`. -/
def containsSub (q : List Char) : List Char → Bool
  | [] => q.isEmpty
  | c :: cs => q.isPrefixOf (c :: cs) || containsSub q cs

/-- Python `q in s` for strings. -/
def pyIn (q s : String) : Bool :=
  containsSub q.data s.data

/-- The separator characters stripped by `validate_phone`
(`contact_book.py` line 157). -/
def separators : List Char := ['-', ' ', '(', ')']

/-- Embedding of line 157: the source removes each separator by replacing
its one-character string with the empty string; chained single-character
replacement by the empty string removes exactly those characters, i.e. it
filters them out of the character list. -/
def clean_phone (phone_number : String) : String :=
  ⟨phone_number.data.filter (fun c => !(separators.contains c))⟩

/-- `ContactBook.validate_phone` (lines 153–160): strip separators, count
decimal digits, require at least 10. -/
def validate_phone (phone_number : String) : Bool :=
  let digits := ((clean_phone phone_number).data.filter (fun c => c.isDigit)).length
  decide (digits ≥ 10)

/-- Result of a mutating store operation: the returned boolean, the store
afterwards, and whether `save_contacts` was called. -/
structure OpResult where
  ok : Bool
  contacts : Contacts
  saved : Bool
deriving DecidableEq, Repr

/-- `ContactBook.add_contact` (lines 30–51).  `now` stands for the
timestamp string `datetime.now().strftime("%Y-%m-%d %H:%M:%S")` produced at
the call. -/
def add_contact (contacts : Contacts) (name phone_number email address : String)
    (now : String) : OpResult :=
  if (contacts.map (fun kv => pylower kv.1)).contains (pylower name) then
    ⟨false, contacts, false⟩
  else if !(validate_phone phone_number) then
    ⟨false, contacts, false⟩
  else
    ⟨true, contacts ++ [(name, ⟨phone_number, email, address, now⟩)], true⟩

/-- The case-insensitive key-resolution loop shared by `edit_contact`,
`delete_contact` and `display_contact` (e.g. lines 56–60): the first key
whose lowercasing equals the lowercased argument. -/
def find_key (contacts : Contacts) (name : String) : Option String :=
  (contacts.find? (fun kv => pylower kv.1 == pylower name)).map Prod.fst

/-- Python truthiness of an optional-string argument (`if phone_number:`):
`None` and the empty string are falsy. -/
def truthy : Option String → Bool
  | none => false
  | some s => !(s == "")

/-- Replace the phone field. -/
def set_phone (c : Contact) (p : String) : Contact :=
  ⟨p, c.email, c.address, c.date_added⟩

/-- Replace the email field. -/
def set_email (c : Contact) (e : String) : Contact :=
  ⟨c.phone, e, c.address, c.date_added⟩

/-- Replace the address field. -/
def set_address (c : Contact) (a : String) : Contact :=
  ⟨c.phone, c.email, a, c.date_added⟩

/-- Update the record stored under the exact key `key` with `f`
(`self.contacts[key][field] = value`). -/
def update_at (contacts : Contacts) (key : String) (f : Contact → Contact) :
    Contacts :=
  contacts.map (fun kv => if kv.1 == key then (kv.1, f kv.2) else kv)

/-- The combined field update a successful `edit_contact` applies to the
resolved record: phone, then email, then address, each only when its
argument is truthy. -/
def edit_fields (p e a : Option String) (c : Contact) : Contact :=
  let c1 := if truthy p then set_phone c (p.getD "") else c
  let c2 := if truthy e then set_email c1 (e.getD "") else c1
  if truthy a then set_address c2 (a.getD "") else c2

/-- `ContactBook.edit_contact` (lines 53–80): resolve the key
case-insensitively; if a truthy phone is supplied and invalid, return
failure before any change; otherwise apply each truthy field in order and
save. -/
def edit_contact (contacts : Contacts) (name : String)
    (phone_number email address : Option String) : OpResult :=
  match find_key contacts name with
  | none => ⟨false, contacts, false⟩
  | some contact_key =>
    if truthy phone_number && !(validate_phone (phone_number.getD "")) then
      ⟨false, contacts, false⟩
    else
      let c1 := if truthy phone_number then
          update_at contacts contact_key (fun c => set_phone c (phone_number.getD ""))
        else contacts
      let c2 := if truthy email then
          update_at c1 contact_key (fun c => set_email c (email.getD ""))
        else c1
      let c3 := if truthy address then
          update_at c2 contact_key (fun c => set_address c (address.getD ""))
        else c2
      ⟨true, c3, true⟩

/-- `ContactBook.search_contact` (lines 82–95): keep, in store order, the
pairs whose name contains the query case-insensitively, or whose phone
contains it exactly, or whose email contains it case-insensitively. -/
def search_contact (contacts : Contacts) (query : String) :
    List (String × Contact) :=
  let query_lower := pylower query
  contacts.filter (fun kv =>
    pyIn query_lower (pylower kv.1) ||
    pyIn query kv.2.phone ||
    pyIn query_lower (pylower kv.2.email))

/-- `ContactBook.delete_contact` (lines 97–112). -/
def delete_contact (contacts : Contacts) (name : String) : OpResult :=
  match find_key contacts name with
  | none => ⟨false, contacts, false⟩
  | some contact_key =>
    ⟨true, contacts.filter (fun kv => !(kv.1 == contact_key)), true⟩

/-- The spec's `get(name)` / `display_contact` lookup (lines 114–126):
resolve the key case-insensitively and return the stored record. -/
def get_contact (contacts : Contacts) (name : String) : Option Contact :=
  (contacts.find? (fun kv => pylower kv.1 == pylower name)).map Prod.snd

/-- A parsed JSON value, as produced by `json.load`. -/
inductive Json where
  | null
  | bool (b : Bool)
  | num (n : Int)
  | str (s : String)
  | arr (elems : List Json)
  | obj (members : List (String × Json))

/-- State of the backing file as seen through the `json` library: missing,
present but not syntactically valid JSON, or present and parsing to a JSON
value. -/
inductive FileState where
  | absent
  | invalid
  | valid (content : Json)

/-- The JSON object `json.dump` receives for one contact
(`contact_book.py` lines 43–48). -/
def encodeContact (c : Contact) : Json :=
  Json.obj [("phone", Json.str c.phone), ("email", Json.str c.email),
    ("address", Json.str c.address), ("date_added", Json.str c.date_added)]

/-- The JSON object `json.dump` receives for the whole store: a
record-of-records keyed by contact name. -/
def encodeContacts (m : Contacts) : Json :=
  Json.obj (m.map (fun kv => (kv.1, encodeContact kv.2)))

/-- `ContactBook.save_contacts` (lines 24–28): overwrite the backing file
with the serialized store. -/
def save_contacts (m : Contacts) : FileState :=
  FileState.valid (encodeContacts m)

/-- `ContactBook.load_contacts` (lines 13–22): missing file gives an empty
mapping; a `json.JSONDecodeError` is caught, an error notice printed (the
second component) and an empty mapping returned; otherwise whatever
`json.load` parsed is returned unchanged. -/
def load_contacts : FileState → Json × Bool
  | FileState.absent => (Json.obj [], false)
  | FileState.invalid => (Json.obj [], true)
  | FileState.valid j => (j, false)

/-- Read a JSON string, as the program does when it uses a loaded field as
a Python string. -/
def decodeStr : Json → Option String
  | Json.str s => some s
  | _ => none

/-- Read one loaded contact record back as a `Contact`: the four string
fields looked up by name, as the program reads them. -/
def decodeContact : Json → Option Contact
  | Json.obj kvs => do
    let p ← (kvs.lookup "phone").bind decodeStr
    let e ← (kvs.lookup "email").bind decodeStr
    let a ← (kvs.lookup "address").bind decodeStr
    let d ← (kvs.lookup "date_added").bind decodeStr
    pure ⟨p, e, a, d⟩
  | _ => none

/-- Read the members of a loaded record-of-records back as store entries. -/
def decodeEntries : List (String × Json) → Option Contacts
  | [] => some []
  | kv :: rest => do
    let c ← decodeContact kv.2
    let tail ← decodeEntries rest
    pure ((kv.1, c) :: tail)

/-- Read a loaded record-of-records back as a store. -/
def decodeContacts : Json → Option Contacts
  | Json.obj kvs => decodeEntries kvs
  | _ => none

/-- The spec's store invariant: no two keys of the mapping are equal under
case-insensitive comparison. -/
def ciNodup (m : Contacts) : Prop :=
  (m.map (fun kv => pylower kv.1)).Nodup

instance (m : Contacts) : Decidable (ciNodup m) := by
  unfold ciNodup
  infer_instance

/-- A sample record used by concrete witnesses. -/
def sampleContact : Contact :=
  ⟨"5551234567", "c@example.com", "12 Main St", "2026-01-01 09:00:00"⟩

/-- Spec-side formalisation of the search match condition: the query is a
case-insensitive substring of the name, or an exact substring of the phone,
or a case-insensitive substring of the email. -/
def matches_query (query : String) (kv : String × Contact) : Prop :=
  (pylower query).data <:+: (pylower kv.1).data ∨
  query.data <:+: kv.2.phone.data ∨
  (pylower query).data <:+: (pylower kv.2.email).data

instance (query : String) (kv : String × Contact) :
    Decidable (matches_query query kv) := by
  unfold matches_query
  exact inferInstance

/-! ### Helper lemmas -/

/-- `containsSub` decides contiguous-sublist containment, i.e. it agrees
with Python's substring test. -/
theorem containsSub_iff (q s : List Char) : containsSub q s = true ↔ q <:+: s := by
  induction s with
  | nil => simp [containsSub, List.isEmpty_iff]
  | cons c cs ih =>
    rw [List.infix_cons_iff]
    simp [containsSub, ih]

/-- `pyIn` as the decision procedure for list containment. -/
theorem pyIn_eq_decide (q s : String) :
    pyIn q s = decide (q.data <:+: s.data) := by
  rw [Bool.eq_iff_iff, decide_eq_true_iff]
  exact containsSub_iff q.data s.data

/-- The empty string is a substring of every string. -/
theorem pyIn_empty_left (s : String) : pyIn "" s = true := by
  rw [pyIn_eq_decide]
  simp

/-- Decoding undoes encoding on a single record. -/
theorem decodeContact_encodeContact (c : Contact) :
    decodeContact (encodeContact c) = some c := rfl

/-- Decoding undoes encoding on the whole store. -/
theorem decodeContacts_encodeContacts (m : Contacts) :
    decodeContacts (encodeContacts m) = some m := by
  induction m with
  | nil => rfl
  | cons kv tail ih =>
    simp only [encodeContacts, decodeContacts, List.map_cons, decodeEntries] at ih ⊢
    simp [ih, decodeContact_encodeContact]

/-- `update_at` changes no key. -/
theorem update_at_map_fst (m : Contacts) (k : String) (f : Contact → Contact) :
    (update_at m k f).map Prod.fst = m.map Prod.fst := by
  unfold update_at
  rw [List.map_map]
  apply List.map_congr_left
  intro kv _
  simp only [Function.comp]
  split <;> rfl

/-- Two successive updates at the same key compose. -/
theorem update_at_update_at (m : Contacts) (k : String) (f g : Contact → Contact) :
    update_at (update_at m k f) k g = update_at m k (fun c => g (f c)) := by
  unfold update_at
  rw [List.map_map]
  apply List.map_congr_left
  intro kv _
  simp only [Function.comp]
  by_cases h : (kv.1 == k) = true
  · simp [h]
  · simp [h]

/-- Updating with the identity changes nothing. -/
theorem update_at_id (m : Contacts) (k : String) :
    update_at m k (fun c => c) = m := by
  unfold update_at
  conv_rhs => rw [← List.map_id m]
  apply List.map_congr_left
  intro kv _
  split <;> rfl

/-- A successful `edit_contact` call is exactly an `update_at` of the
resolved key with the combined field update. -/
theorem edit_contact_eq (contacts : Contacts) (name : String)
    (p e a : Option String) (key : String)
    (hk : find_key contacts name = some key)
    (hv : (truthy p && !(validate_phone (p.getD ""))) = false) :
    edit_contact contacts name p e a
      = ⟨true, update_at contacts key (edit_fields p e a), true⟩ := by
  have hef : edit_fields p e a = fun c =>
      (let c1 := if truthy p then set_phone c (p.getD "") else c
       let c2 := if truthy e then set_email c1 (e.getD "") else c1
       if truthy a then set_address c2 (a.getD "") else c2) := rfl
  unfold edit_contact
  rw [hk, hef]
  simp only [hv, Bool.false_eq_true, if_false]
  rcases hp : truthy p <;> rcases he : truthy e <;> rcases ha : truthy a <;>
    simp [hp, he, ha, update_at_update_at, update_at_id]

/-- `edit_fields` never touches `date_added`. -/
theorem edit_fields_date_added (p e a : Option String) (c : Contact) :
    (edit_fields p e a c).date_added = c.date_added := by
  unfold edit_fields set_phone set_email set_address
  rcases truthy p <;> rcases truthy e <;> rcases truthy a <;> simp

/-- `edit_fields` keeps the phone when no phone argument is supplied. -/
theorem edit_fields_phone (p e a : Option String) (c : Contact)
    (hp : truthy p = false) :
    (edit_fields p e a c).phone = c.phone := by
  unfold edit_fields set_phone set_email set_address
  rw [hp]
  rcases truthy e <;> rcases truthy a <;> simp

/-- `edit_fields` keeps the email when no email argument is supplied. -/
theorem edit_fields_email (p e a : Option String) (c : Contact)
    (he : truthy e = false) :
    (edit_fields p e a c).email = c.email := by
  unfold edit_fields set_phone set_email set_address
  rw [he]
  rcases truthy p <;> rcases truthy a <;> simp

/-- `edit_fields` keeps the address when no address argument is supplied. -/
theorem edit_fields_address (p e a : Option String) (c : Contact)
    (ha : truthy a = false) :
    (edit_fields p e a c).address = c.address := by
  unfold edit_fields set_phone set_email set_address
  rw [ha]
  rcases truthy p <;> rcases truthy e <;> simp

/-- Stores with the same key sequence satisfy the case-insensitive key
invariant together. -/
theorem ciNodup_of_map_fst_eq (r m : Contacts)
    (hfst : r.map Prod.fst = m.map Prod.fst) (h : ciNodup m) : ciNodup r := by
  unfold ciNodup at h ⊢
  have hr : r.map (fun kv => pylower kv.1) = (r.map Prod.fst).map pylower := by
    rw [List.map_map]
    rfl
  have hm : m.map (fun kv => pylower kv.1) = (m.map Prod.fst).map pylower := by
    rw [List.map_map]
    rfl
  rw [hr, hfst, ← hm]
  exact h

/-- `edit_contact` never changes the key sequence, whether it succeeds or
fails. -/
theorem edit_contact_map_fst (contacts : Contacts) (name : String)
    (p e a : Option String) :
    (edit_contact contacts name p e a).contacts.map Prod.fst
      = contacts.map Prod.fst := by
  unfold edit_contact
  cases hk : find_key contacts name with
  | none => rfl
  | some key =>
    rcases hv : truthy p && !(validate_phone (p.getD ""))
    · rcases hp : truthy p <;> rcases he : truthy e <;> rcases ha : truthy a <;>
        simp [hp, he, ha, update_at_map_fst]
    · rfl

/-! ### Claim theorems -/

/-- C1: `validate_phone(p)` returns true iff the number of decimal-digit
characters remaining in `p` after removing every hyphen, space, open
parenthesis and close parenthesis is at least 10.  (The function is a pure
string computation; it is embedded as a Lean function, so it has no side
effects by construction.) -/
theorem validate_phone_iff (p : String) :
    validate_phone p = true ↔
      10 ≤ (p.data.filter (fun c => decide (c ≠ '-' ∧ c ≠ ' ' ∧ c ≠ '(' ∧ c ≠ ')'))).countP
        (fun c => c.isDigit) := by
  have hpred : ∀ c : Char, (!(separators.contains c))
      = decide (c ≠ '-' ∧ c ≠ ' ' ∧ c ≠ '(' ∧ c ≠ ')') := by
    intro c
    simp [separators]
  unfold validate_phone clean_phone
  simp only [List.countP_eq_length_filter, hpred]
  simp

/-- C7: `search_contact` returns, in store iteration order, exactly the
pairs matching the spec's disjunction (case-insensitive on name and email,
exact on phone); when nothing matches the result is the empty list, not an
error. -/
theorem search_contact_spec (contacts : Contacts) (query : String) :
    search_contact contacts query
      = contacts.filter (fun kv => decide (matches_query query kv)) := by
  unfold search_contact matches_query
  simp [pyIn_eq_decide, Bool.or_assoc]

/-- C10: searching with the empty-string query returns every contact of
the store, in store order: the empty string is a substring of every name,
so an empty query acts as list-all and is not rejected. -/
theorem search_contact_empty_query (contacts : Contacts) :
    search_contact contacts "" = contacts := by
  unfold search_contact
  simp [pyIn_empty_left]

/-- C6: persisting a store and loading the resulting file contents back
reproduces an equal mapping — same keys in the same order and the same
four field values for every contact. -/
theorem save_load_round_trip (m : Contacts) :
    decodeContacts ((load_contacts (save_contacts m)).1) = some m := by
  simp [save_contacts, load_contacts, decodeContacts_encodeContacts]

/-- C9 (amended): `load_contacts` is total — it never fails.  A missing
file yields an empty mapping with no notice; a file that is not
syntactically valid JSON yields an error notice and an empty mapping; a
file parsing to any JSON value yields that value unchanged, whatever its
shape. -/
theorem load_contacts_total :
    load_contacts FileState.absent = (Json.obj [], false) ∧
    load_contacts FileState.invalid = (Json.obj [], true) ∧
    ∀ j : Json, load_contacts (FileState.valid j) = (j, false) :=
  ⟨rfl, rfl, fun _ => rfl⟩

/-- C9 counterexample: a backing file holding the JSON text `[]` parses
successfully but is not a record-of-records; `load_contacts` returns the
array unchanged with no error notice, not an empty mapping. -/
theorem load_contacts_nonobject :
    load_contacts (FileState.valid (Json.arr [])) = (Json.arr [], false) ∧
    Json.arr [] ≠ Json.obj [] ∧
    decodeContacts (Json.arr []) = none :=
  ⟨rfl, fun h => Json.noConfusion h, rfl⟩

/-- C3: when the store already holds a case-insensitive match for `name`,
`add_contact` returns failure, does not save, and leaves the mapping
unchanged. -/
theorem add_contact_duplicate (contacts : Contacts) (name p e a now : String)
    (h : ∃ kv ∈ contacts, pylower kv.1 = pylower name) :
    add_contact contacts name p e a now = ⟨false, contacts, false⟩ := by
  unfold add_contact
  have hc : (contacts.map (fun kv => pylower kv.1)).contains (pylower name) = true := by
    obtain ⟨kv, hm, he⟩ := h
    exact List.contains_iff_exists_mem_beq.mpr
      ⟨pylower kv.1, List.mem_map.mpr ⟨kv, hm, rfl⟩, by simp [he]⟩
  simp only [hc]
  rfl

/-- C3 witness: after adding `"Bob"`, adding `"bob"` fails and changes
nothing. -/
theorem add_contact_duplicate_witness :
    add_contact [("Bob", sampleContact)] "bob" "5551234567" "" "" "2026-01-01 09:00:00"
      = ⟨false, [("Bob", sampleContact)], false⟩ :=
  add_contact_duplicate _ _ _ _ _ _ ⟨("Bob", sampleContact), by simp, by decide⟩

/-- C2: when the store holds a case-insensitive match for `name` and a
non-empty phone is supplied that fails `validate_phone`, `edit_contact`
returns failure, does not save, and changes no stored field — the supplied
email and address are not applied either. -/
theorem edit_contact_invalid_phone (contacts : Contacts) (name : String)
    (phone email address : Option String)
    (hmem : ∃ kv ∈ contacts, pylower kv.1 = pylower name)
    (hph : truthy phone = true)
    (hinv : validate_phone (phone.getD "") = false) :
    edit_contact contacts name phone email address = ⟨false, contacts, false⟩ := by
  have hf : (contacts.find? (fun kv => pylower kv.1 == pylower name)).isSome := by
    obtain ⟨kv, hm, he⟩ := hmem
    rw [List.find?_isSome]
    exact ⟨kv, hm, by simp [he]⟩
  obtain ⟨x, hx⟩ := Option.isSome_iff_exists.mp hf
  have hk : find_key contacts name = some x.1 := by
    unfold find_key
    rw [hx]
    rfl
  unfold edit_contact
  rw [hk]
  simp [hph, hinv]

/-- C2 witness: an edit of Carol with an invalid phone applies neither the
new email nor the new address. -/
theorem edit_contact_invalid_phone_witness :
    edit_contact [("Carol", sampleContact)] "carol"
        (some "123") (some "new@example.com") (some "1 Elm St")
      = ⟨false, [("Carol", sampleContact)], false⟩ :=
  edit_contact_invalid_phone _ _ _ _ _
    ⟨("Carol", sampleContact), by simp, by decide⟩ (by decide) (by decide)

/-- C4: with no case-insensitive match for `name` and a valid phone,
`add_contact` succeeds, saves, and appends an entry mapping `name` (in its
original case) to a record holding exactly the supplied phone, email and
address, with `date_added` the timestamp string produced at the call
(`datetime.now().strftime` of `YYYY-MM-DD HH:MM:SS`, passed as `now`);
afterwards looking the name up returns that record. -/
theorem add_contact_fresh (contacts : Contacts) (name p e a now : String)
    (hno : ¬ ∃ kv ∈ contacts, pylower kv.1 = pylower name)
    (hv : validate_phone p = true) :
    add_contact contacts name p e a now
      = ⟨true, contacts ++ [(name, ⟨p, e, a, now⟩)], true⟩ ∧
    get_contact (contacts ++ [(name, ⟨p, e, a, now⟩)]) name = some ⟨p, e, a, now⟩ := by
  have hlow : ∀ kv ∈ contacts, pylower kv.1 ≠ pylower name :=
    fun kv hm he => hno ⟨kv, hm, he⟩
  have h1 : contacts.find? (fun kv => pylower kv.1 == pylower name) = none := by
    rw [List.find?_eq_none]
    intro kv hm
    simp only [beq_iff_eq]
    exact hlow kv hm
  constructor
  · have hc : (contacts.map (fun kv => pylower kv.1)).contains (pylower name) = false := by
      apply Bool.eq_false_iff.mpr
      intro hcon
      obtain ⟨x, hx, hbeq⟩ := List.contains_iff_exists_mem_beq.mp hcon
      obtain ⟨kv, hm, rfl⟩ := List.mem_map.mp hx
      exact hlow kv hm (beq_iff_eq.mp hbeq).symm
    unfold add_contact
    simp only [hc, hv]
    rfl
  · unfold get_contact
    rw [List.find?_append, h1]
    simp

/-- C4 witness: adding Alice to the empty store stores and returns her
record. -/
theorem add_contact_fresh_witness :
    add_contact [] "Alice" "5551234567" "a@example.com" "" "2026-01-01 09:00:00"
      = ⟨true, [("Alice", ⟨"5551234567", "a@example.com", "", "2026-01-01 09:00:00"⟩)], true⟩ ∧
    get_contact [("Alice", ⟨"5551234567", "a@example.com", "", "2026-01-01 09:00:00"⟩)] "Alice"
      = some ⟨"5551234567", "a@example.com", "", "2026-01-01 09:00:00"⟩ :=
  add_contact_fresh _ _ _ _ _ _ (by decide) (by decide)

/-- C8: a successful `edit_contact` keeps every key in its original case
and order, never changes `date_added`, leaves each field whose argument was
not supplied (None or empty) unchanged, and leaves every entry whose key is
not the resolved one entirely unchanged. -/
theorem edit_contact_frame (contacts : Contacts) (name : String)
    (p e a : Option String) (key : String)
    (hk : find_key contacts name = some key)
    (hval : truthy p = true → validate_phone (p.getD "") = true) :
    (edit_contact contacts name p e a).ok = true ∧
    (edit_contact contacts name p e a).saved = true ∧
    List.Forall₂ (fun kv kv' : String × Contact =>
      kv'.1 = kv.1 ∧
      kv'.2.date_added = kv.2.date_added ∧
      (kv.1 ≠ key → kv' = kv) ∧
      (truthy p = false → kv'.2.phone = kv.2.phone) ∧
      (truthy e = false → kv'.2.email = kv.2.email) ∧
      (truthy a = false → kv'.2.address = kv.2.address))
      contacts (edit_contact contacts name p e a).contacts := by
  have hv : (truthy p && !(validate_phone (p.getD ""))) = false := by
    rcases hp : truthy p
    · simp
    · simp [hval hp]
  rw [edit_contact_eq contacts name p e a key hk hv]
  refine ⟨rfl, rfl, ?_⟩
  unfold update_at
  rw [List.forall₂_map_right_iff]
  rw [List.forall₂_same]
  intro kv hm
  by_cases hkey : (kv.1 == key) = true
  · rw [if_pos hkey]
    exact ⟨rfl, edit_fields_date_added p e a kv.2,
      fun hne => absurd (beq_iff_eq.mp hkey) hne,
      fun hp => edit_fields_phone p e a kv.2 hp,
      fun he => edit_fields_email p e a kv.2 he,
      fun ha => edit_fields_address p e a kv.2 ha⟩
  · rw [if_neg hkey]
    exact ⟨rfl, rfl, fun _ => rfl, fun _ => rfl, fun _ => rfl, fun _ => rfl⟩

/-- C8 witness: editing Carol's email only, the phone, address,
`date_added` and key case are untouched. -/
theorem edit_contact_frame_witness :
    (edit_contact [("Carol", sampleContact)] "carol"
        none (some "new@example.com") none).ok = true ∧
    (edit_contact [("Carol", sampleContact)] "carol"
        none (some "new@example.com") none).saved = true ∧
    List.Forall₂ (fun kv kv' : String × Contact =>
      kv'.1 = kv.1 ∧
      kv'.2.date_added = kv.2.date_added ∧
      (kv.1 ≠ "Carol" → kv' = kv) ∧
      (truthy none = false → kv'.2.phone = kv.2.phone) ∧
      (truthy (some "new@example.com") = false → kv'.2.email = kv.2.email) ∧
      (truthy none = false → kv'.2.address = kv.2.address))
      [("Carol", sampleContact)]
      (edit_contact [("Carol", sampleContact)] "carol"
        none (some "new@example.com") none).contacts :=
  edit_contact_frame [("Carol", sampleContact)] "carol"
    none (some "new@example.com") none "Carol" (by decide) (by decide)

/-- C5 (amended): the case-insensitive key-uniqueness invariant is
preserved by `add_contact`, `edit_contact` and `delete_contact` (the query
operations do not touch the store), and a store persisted and reloaded is
reproduced exactly, so loading a file that was produced by `save_contacts`
from an invariant-satisfying store satisfies the invariant again.  Loading
an arbitrary file does not establish the invariant — see the
counterexample. -/
theorem ciNodup_preserved (m : Contacts) (n1 n2 n3 p e a now : String)
    (op oe oa : Option String) (h : ciNodup m) :
    ciNodup ((add_contact m n1 p e a now).contacts) ∧
    ciNodup ((edit_contact m n2 op oe oa).contacts) ∧
    ciNodup ((delete_contact m n3).contacts) ∧
    decodeContacts ((load_contacts (save_contacts m)).1) = some m := by
  refine ⟨?_, ?_, ?_, decodeContacts_encodeContacts m⟩
  · unfold add_contact
    by_cases hc : (m.map (fun kv => pylower kv.1)).contains (pylower n1) = true
    · rw [if_pos hc]
      exact h
    · rw [if_neg hc]
      by_cases hv : (!(validate_phone p)) = true
      · rw [if_pos hv]
        exact h
      · rw [if_neg hv]
        have hnotin : pylower n1 ∉ m.map (fun kv => pylower kv.1) := by
          intro hmem
          exact hc (List.contains_iff_exists_mem_beq.mpr ⟨pylower n1, hmem, by simp⟩)
        unfold ciNodup at h ⊢
        simp only [List.map_append, List.map_cons, List.map_nil]
        rw [List.nodup_append]
        refine ⟨h, List.nodup_singleton _, ?_⟩
        intro x hx hx2
        rw [List.mem_singleton] at hx2
        subst hx2
        exact hnotin hx
  · exact ciNodup_of_map_fst_eq _ m (edit_contact_map_fst m n2 op oe oa) h
  · unfold delete_contact
    cases hk : find_key m n3 with
    | none => exact h
    | some key =>
      unfold ciNodup at h ⊢
      have hsub : List.Sublist
          ((m.filter (fun kv => !(kv.1 == key))).map (fun kv => pylower kv.1))
          (m.map (fun kv => pylower kv.1)) :=
        (List.filter_sublist m).map _
      exact h.sublist hsub

/-- C5 witness: on a one-contact store the three mutating operations
preserve the invariant and persist/load reproduces the store. -/
theorem ciNodup_preserved_witness :
    ciNodup ((add_contact [("Alice", sampleContact)] "Bob" "5551234567" "" "" "2026-01-01 09:00:00").contacts) ∧
    ciNodup ((edit_contact [("Alice", sampleContact)] "alice" none (some "n@example.com") none).contacts) ∧
    ciNodup ((delete_contact [("Alice", sampleContact)] "ALICE").contacts) ∧
    decodeContacts ((load_contacts (save_contacts [("Alice", sampleContact)])).1)
      = some [("Alice", sampleContact)] :=
  ciNodup_preserved [("Alice", sampleContact)] "Bob" "alice" "ALICE"
    "5551234567" "" "" "2026-01-01 09:00:00"
    none (some "n@example.com") none (by decide)

/-- C5 counterexample: the file `{"Bob": {...}, "bob": {...}}` is valid
JSON, so `load_contacts` constructs a mapping whose keys `"Bob"` and
`"bob"` are equal under case-insensitive comparison — the invariant does
not hold after this load. -/
theorem ciNodup_load_counterexample :
    decodeContacts ((load_contacts (FileState.valid (encodeContacts
      [("Bob", sampleContact), ("bob", sampleContact)]))).1)
      = some [("Bob", sampleContact), ("bob", sampleContact)] ∧
    ¬ ciNodup [("Bob", sampleContact), ("bob", sampleContact)] :=
  ⟨decodeContacts_encodeContacts _, by decide⟩
